import Mathlib

/-!
# pi3GPIO: the BCM2837 GPIO access header `RPI3.h`

A shallow embedding of `src/RPI3.h` (and of the way `src/test.c` uses it).

* C `int` and `unsigned` are 32 bits wide (the Raspberry Pi 2/3 target); `unsigned long`
  and pointers are 32 bits wide as well (ILP32).  Integer values are mathematical
  integers, and every conversion between C types is an explicit reduction modulo `2^32`.
* The mapped register block seen through the pointer in the `addr` field of the handle is
  a function from word offsets to the 32-bit contents of the words.
* The operating system is an oracle giving the results of `open`, `mmap` and `munmap`;
  the system calls a function makes are recorded in a trace.
-/

namespace RPI3

/-! ## C integer arithmetic -/

/-- Reduction of a mathematical integer to the range of a 32-bit C `int`,
`[-2^31, 2^31)` (two's complement wrap-around). -/
def wrap_int (z : Int) : Int := (z + 2147483648) % 4294967296 - 2147483648

/-- Conversion of a C `int` to `unsigned` (also to `unsigned long` and to a pointer on the
32-bit target): the value modulo `2^32`. -/
def to_unsigned (z : Int) : Nat := (z % 4294967296).toNat

/-- Conversion of an `unsigned long` to `int`, as happens when the `devmem_fd` field is passed
for an `int` parameter. -/
def to_int (n : Nat) : Int := wrap_int (n : Int)

/-- The C expression `x << n` on `int` operands, for a shift count `0 ≤ n < 32`: the
product with `2^n`, wrapped to the range of `int` as GCC does. -/
def int_shl (x : Int) (n : Nat) : Int := wrap_int (x * 2 ^ n)

/-- The C expression `~x` on an `int` operand. -/
def int_not (x : Int) : Int := -x - 1

/-! ## Constants of `RPI3.h` and of the system headers it includes -/

def BCM_PERI_BASE : Nat := 0x3F000000

def GPIO_BASE : Nat := BCM_PERI_BASE + 0x200000

def BLOCK_SZ : Nat := 4 * 1024

/-- Access mode `O_RDWR` of `<fcntl.h>` on Linux. -/
def O_RDWR : Nat := 0x2

/-- Flag `O_SYNC` of `<fcntl.h>` on Linux. -/
def O_SYNC : Nat := 0x101000

/-- Protection `PROT_READ` of `<sys/mman.h>`. -/
def PROT_READ : Nat := 0x1

/-- Protection `PROT_WRITE` of `<sys/mman.h>`. -/
def PROT_WRITE : Nat := 0x2

/-- Flag `MAP_SHARED` of `<sys/mman.h>`. -/
def MAP_SHARED : Nat := 0x1

/-- The pointer `MAP_FAILED` of `<sys/mman.h>`, which is `(void *) -1`. -/
def MAP_FAILED : Nat := to_unsigned (-1)

/-- The null pointer. -/
def NULL : Nat := 0

/-! ## The register block -/

/-- Contents of the mapped block: word offset from the `addr` pointer to the value of the
32-bit word there. -/
abbrev Regs := Nat → Nat

/-- Every word of the block holds a 32-bit value. -/
def Regs.WF (r : Regs) : Prop := ∀ i, r i < 4294967296

/-- Effect of the store `*(addr + off) = v` on the block behind the mapping. -/
abbrev Device := Regs → Nat → Nat → Regs

/-- Ordinary memory: the store replaces the word at `off` and nothing else. -/
def ram : Device := fun r off v i => if i = off then v else r i

/-- Word offset of the register that `GPIO_SET` designates, `*(addr + 7)`. -/
def GPIO_SET : Nat := 7

/-- Word offset of the register that `GPIO_CLR` designates, `*(addr + 10)`. -/
def GPIO_CLR : Nat := 10

/-- Word offset of the pin level register read by `GPIO_READ`, `*(addr + 13)`. -/
def GPIO_LEV : Nat := 13

/-- Modelled from the spec: the loopback test harness, which is no part of the sources and
in which the outputs reflect to the levels.  A store of `v` to the output-set word turns the level word into
`level | v`, a store of `v` to the output-clear word turns it into `level & ~v`
(complement on 32 bits), and every other store behaves as on ordinary memory. -/
def loopback : Device := fun r off v =>
  if off = GPIO_SET then ram r GPIO_LEV (r GPIO_LEV ||| v)
  else if off = GPIO_CLR then ram r GPIO_LEV (r GPIO_LEV &&& (4294967295 ^^^ (v % 4294967296)))
  else ram r off v

/-! ## The pin register interface (the accessors of `RPI3.h`)

Pin numbers are natural numbers: for them the C operators `/` and `%` are `Nat` division
and remainder. -/

/-- `SET_IN(p)`, that is `*(addr + ((p)/10)) &= ~(7<<((p%10)*3))`. -/
def SET_IN (d : Device) (r : Regs) (p : Nat) : Regs :=
  d r (p / 10) (r (p / 10) &&& to_unsigned (int_not (int_shl 7 ((p % 10) * 3))))

/-- `SET_OUT(p)`, that is `*(addr + ((p)/10)) |= (1<<((p%10)*3))`. -/
def SET_OUT (d : Device) (r : Regs) (p : Nat) : Regs :=
  d r (p / 10) (r (p / 10) ||| to_unsigned (int_shl 1 ((p % 10) * 3)))

/-- The code selected by `SET_ALT` for the alternate function `i`:
`(i<=3?(i+4):(i==4?3:2))`. -/
def alt_code (i : Int) : Int := if i ≤ 3 then i + 4 else (if i = 4 then 3 else 2)

/-- `SET_ALT(p, i)`, that is
`*(addr + (p/10)) |= ((i<=3?(i+4):(i==4?3:2))<<((p%10)*3))`. -/
def SET_ALT (d : Device) (r : Regs) (p : Nat) (i : Int) : Regs :=
  d r (p / 10) (r (p / 10) ||| to_unsigned (int_shl (alt_code i) ((p % 10) * 3)))

/-- The statement `GPIO_SET = 1 << p;` of `test.c` and of the comment on `GPIO_SET`, which
the specification calls `set_high(pin)`. -/
def set_high (d : Device) (r : Regs) (p : Nat) : Regs :=
  d r GPIO_SET (to_unsigned (int_shl 1 p))

/-- The statement `GPIO_CLR = 1 << p;` of `test.c` and of the comment on `GPIO_CLR`, which
the specification calls `set_low(pin)`. -/
def set_low (d : Device) (r : Regs) (p : Nat) : Regs :=
  d r GPIO_CLR (to_unsigned (int_shl 1 p))

/-- `GPIO_READ(p)`, that is `(*(addr + 13) & (1<<(p)))`: the value of the expression,
together with the block after its evaluation (the expression contains no store). -/
def GPIO_READ (r : Regs) (p : Nat) : Nat × Regs :=
  (r GPIO_LEV &&& to_unsigned (int_shl 1 p), r)

/-- The operation `read_level(pin)` of the specification: the value of `GPIO_READ(p)` taken
as a C truth value, true when it is not 0. -/
def read_level (r : Regs) (p : Nat) : Bool × Regs :=
  (decide ((GPIO_READ r p).1 ≠ 0), (GPIO_READ r p).2)

/-- The three bits `[j*3, j*3+3)` of a function-select word, as a number in `0..7`. -/
def field (w : Nat) (j : Nat) : Nat := (w >>> (j * 3)) &&& 7

/-- The function-select field of pin `q`: field `q % 10` of word `q / 10`. -/
def fsel (r : Regs) (q : Nat) : Nat := field (r (q / 10)) (q % 10)

/-- A block whose words are all 0. -/
def regs_zero : Regs := fun _ => 0

/-- A block whose words are all `0xFFFFFFFF`. -/
def regs_ones : Regs := fun _ => 4294967295

/-- A block whose words all hold the pattern `0xAAAAAAAA`. -/
def regs_stripes : Regs := fun _ => 2863311530

/-- A block in which pin 18 is high: the level word holds `1 << 18`, the others 0. -/
def regs_level18 : Regs := fun i => if i = 13 then 262144 else 0

/-- A block in which pin 18 is on its alternate function 0: word 1 holds `4 << 24`, so
the field of pin 18 is `100`; the other words are 0. -/
def regs_pin18_alt0 : Regs := fun i => if i = 1 then 67108864 else 0

/-! ## The register mapper (`map_gpio`, `unmap_gpio`) -/

/-- The handle `peri_t`: `devmem_fd` is an `unsigned long`, `map` and `addr` are pointers. -/
structure peri_t where
  devmem_fd : Nat
  map : Nat
  addr : Nat
deriving DecidableEq

/-- Results of the system calls made by the mapper: the value returned by
`open("/dev/mem", O_RDWR|O_SYNC)`, the pointer returned by `mmap` for a given descriptor
argument, the value of `errno` after `mmap`, and the value returned by `munmap`. -/
structure OS where
  open_ret : Int
  mmap_ret : Int → Nat
  errno : Int
  munmap_ret : Int

/-- Calls made to the C library, with their arguments. -/
inductive Call where
  | sys_open (path : String) (flags : Nat)
  | sys_mmap (addr len prot flags : Nat) (fd : Int) (off : Nat)
  | sys_close (fd : Int)
  | sys_munmap (addr len : Nat)
  | printf (fmt : String) (args : List Int)
deriving DecidableEq

/-- Outcome of a mapper function: returned value, handle afterwards, calls made in order. -/
structure Outcome where
  ret : Int
  handle : peri_t
  trace : List Call
deriving DecidableEq

/-- `map_gpio(pGPIO)`.  The value of `open` is converted to the `unsigned long` field
`devmem_fd`, the comparison `devmem_fd < 0` is made in `unsigned long`, and the field is
converted to `int` where it is passed as a descriptor. -/
def map_gpio (os : OS) (g : peri_t) : Outcome :=
  let g1 : peri_t := { g with devmem_fd := to_unsigned os.open_ret }
  let t1 : List Call := [Call.sys_open "/dev/mem" (O_RDWR ||| O_SYNC)]
  if g1.devmem_fd < to_unsigned 0 then
    { ret := -1, handle := g1, trace := t1 ++ [Call.printf "failed to open /dev/mem\n" []] }
  else
    let g2 : peri_t := { g1 with map := os.mmap_ret (to_int g1.devmem_fd) }
    let t2 : List Call := t1 ++
      [Call.sys_mmap NULL BLOCK_SZ (PROT_READ ||| PROT_WRITE) MAP_SHARED
        (to_int g1.devmem_fd) GPIO_BASE]
    if g2.map = MAP_FAILED then
      { ret := -1, handle := g2,
        trace := t2 ++ [Call.printf "failed to map error code: %d\n" [os.errno]] }
    else
      { ret := 0, handle := { g2 with addr := g2.map },
        trace := t2 ++ [Call.sys_close (to_int g2.devmem_fd)] }

/-- `unmap_gpio(pGPIO)`: the value returned by `munmap` is not used. -/
def unmap_gpio (_os : OS) (g : peri_t) : Outcome :=
  { ret := 0, handle := g, trace := [Call.sys_munmap g.map BLOCK_SZ] }

/-- The handle `GPIO` of `RPI3.h` before any call: an object of static storage, so all of
its fields are zero. -/
def handle_zero : peri_t := { devmem_fd := 0, map := 0, addr := 0 }

/-- An operating system on which every call succeeds: `open` returns descriptor 3 and
`mmap` returns the address `0x76F00000`. -/
def os_ok : OS :=
  { open_ret := 3, mmap_ret := fun _ => 1995440128, errno := 0, munmap_ret := 0 }

/-- An operating system on which `open` succeeds and `mmap` fails with `errno` 12. -/
def os_mmap_fails : OS :=
  { open_ret := 3, mmap_ret := fun _ => MAP_FAILED, errno := 12, munmap_ret := 0 }

/-- An operating system on which `munmap` fails: it returns -1, with `errno` 22. -/
def os_munmap_fails : OS :=
  { open_ret := 3, mmap_ret := fun _ => 1995440128, errno := 22, munmap_ret := -1 }

/-- One call of the mapper by the program, with the operating system's behaviour during
that call. -/
inductive MapperCall where
  | map (os : OS)
  | unmap (os : OS)

/-- An operating system like `os_ok` whose `open` returns descriptor 4 and whose `mmap`
returns the address `0x76EFF000`. -/
def os_ok_second : OS :=
  { open_ret := 4, mmap_ret := fun _ => 1995436032, errno := 0, munmap_ret := 0 }

/-- The handle together with the operating system's list of the mappings of the register
block that exist in the process, given by their base addresses: the mappings created by
the `mmap` calls of `map_gpio` and not removed by a `munmap` call of `unmap_gpio`. -/
structure Tracked where
  handle : peri_t
  live : List Nat
deriving DecidableEq

/-- Effect of one mapper call on the handle and on the list of mappings.  A `map_gpio`
that returns 0 has created a mapping at the address it stored in the field `map`; an
`unmap_gpio` calls `munmap` on the field `map`, which removes the mapping at that address
when `munmap` returns 0 and removes nothing when it fails. -/
def track (s : Tracked) : MapperCall → Tracked
  | MapperCall.map os =>
    { handle := (map_gpio os s.handle).handle,
      live := if (map_gpio os s.handle).ret = 0
        then (map_gpio os s.handle).handle.map :: s.live else s.live }
  | MapperCall.unmap os =>
    { handle := (unmap_gpio os s.handle).handle,
      live := if os.munmap_ret = 0
        then s.live.filter (fun a => decide (a ≠ s.handle.map)) else s.live }

/-- The state reached from the zero handle, with no mapping, by a sequence of mapper
calls. -/
def reach (cs : List MapperCall) : Tracked :=
  cs.foldl track { handle := handle_zero, live := [] }

/-- The specification's "`registerBase` is valid": the field `addr` is the base address of
a mapping that exists. -/
def valid_base (s : Tracked) : Bool := decide (s.handle.addr ∈ s.live)

/-- The specification's "a successful mapping has been established and not yet released":
some mapping created by `map_gpio` has not been removed by `unmap_gpio`. -/
def established (s : Tracked) : Bool := decide (s.live ≠ [])

/-- The life cycle of the specification (one initialisation, then one teardown): in the
sequence of calls, started in state `s`, `map_gpio` is called only while no mapping is
established. -/
def lifecycle (s : Tracked) : List MapperCall → Bool
  | [] => true
  | MapperCall.map os :: cs =>
    decide (s.live = []) && lifecycle (track s (MapperCall.map os)) cs
  | MapperCall.unmap os :: cs => lifecycle (track s (MapperCall.unmap os)) cs

/-- Either no mapping exists, or exactly one does and both pointers of the handle hold its
base address. -/
def sole_mapping (s : Tracked) : Prop :=
  s.live = [] ∨ (s.live = [s.handle.addr] ∧ s.handle.map = s.handle.addr)


/-! ## Arithmetic of the conversions and shifts -/

theorem to_unsigned_wrap_int (z : Int) : to_unsigned (wrap_int z) = to_unsigned z := by
  unfold to_unsigned wrap_int
  congr 1
  omega

theorem to_unsigned_int_shl (x n : Nat) :
    to_unsigned (int_shl (x : Int) n) = (x <<< n) % 4294967296 := by
  unfold int_shl
  rw [to_unsigned_wrap_int]
  unfold to_unsigned
  rw [Nat.shiftLeft_eq]
  have : ((x : Int) * 2 ^ n) = ((x * 2 ^ n : Nat) : Int) := by push_cast; ring
  rw [this]
  omega

theorem testBit_seven (c : Nat) : Nat.testBit 7 c = decide (c < 3) := by
  have h := Nat.testBit_two_pow_sub_one 3 c
  simpa using h

theorem field_testBit (w j b : Nat) :
    (field w j).testBit b = (decide (b < 3) && w.testBit (j * 3 + b)) := by
  unfold field
  rw [Nat.testBit_and, Nat.testBit_shiftRight, testBit_seven, Bool.and_comm]


theorem fsel_mask_eq (j : Nat) (hj : j < 10) :
    to_unsigned (int_not (int_shl 7 (j * 3))) = 4294967295 ^^^ (7 <<< (j * 3)) := by
  interval_cases j <;> decide

theorem testBit_max (b : Nat) : Nat.testBit 4294967295 b = decide (b < 32) := by
  have h := Nat.testBit_two_pow_sub_one 32 b
  simpa using h

theorem fsel_mask_testBit (j b : Nat) (hj : j < 10) :
    (to_unsigned (int_not (int_shl 7 (j * 3)))).testBit b
      = (decide (b < 32) && !(decide (j * 3 ≤ b) && decide (b < j * 3 + 3))) := by
  rw [fsel_mask_eq j hj, Nat.testBit_xor, testBit_max, Nat.testBit_shiftLeft, testBit_seven]
  by_cases h1 : b < 32 <;> by_cases h2 : j * 3 ≤ b <;> by_cases h3 : b < j * 3 + 3 <;>
    simp [h1, h2, h3] <;> omega

theorem code_shl_eq (x j : Nat) (hx : x ≤ 7) (hj : j < 10) :
    to_unsigned (int_shl (x : Int) (j * 3)) = x <<< (j * 3) := by
  rw [to_unsigned_int_shl]
  apply Nat.mod_eq_of_lt
  interval_cases j <;> interval_cases x <;> decide

theorem code_shl_testBit (x j b : Nat) :
    (x <<< (j * 3)).testBit b = (decide (j * 3 ≤ b) && x.testBit (b - j * 3)) := by
  rw [Nat.testBit_shiftLeft]

theorem testBit_ge_three (x c : Nat) (hx : x ≤ 7) (hc : 3 ≤ c) : x.testBit c = false := by
  apply Nat.testBit_lt_two_pow
  calc x < 2 ^ 3 := by omega
    _ ≤ 2 ^ c := Nat.pow_le_pow_right (by decide) hc

theorem field_lt (w j : Nat) : field w j < 8 := by
  unfold field
  exact Nat.lt_succ_of_le Nat.and_le_right

theorem field_clear (w j k : Nat) (hj : j < 10) (hk : k < 10) :
    field (w &&& to_unsigned (int_not (int_shl 7 (j * 3)))) k
      = if k = j then 0 else field w k := by
  apply Nat.eq_of_testBit_eq
  intro b
  rw [field_testBit, Nat.testBit_and, fsel_mask_testBit j _ hj]
  split
  · subst k
    by_cases hb : b < 3
    · have h1 : j * 3 ≤ j * 3 + b := by omega
      have h2 : j * 3 + b < j * 3 + 3 := by omega
      simp [hb, h1, h2]
    · simp [hb]
  · rename_i hne
    rw [field_testBit]
    by_cases hb : b < 3
    · have hlt : k * 3 + b < 32 := by omega
      by_cases h4 : j * 3 ≤ k * 3 + b
      · have h5 : ¬ (k * 3 + b < j * 3 + 3) := by omega
        simp [hb, hlt, h4, h5]
      · simp [hb, hlt, h4]
    · simp [hb]

theorem field_or (w x j k : Nat) (hx : x ≤ 7) :
    field (w ||| (x <<< (j * 3))) k
      = if k = j then field w j ||| x else field w k := by
  apply Nat.eq_of_testBit_eq
  intro b
  rw [field_testBit, Nat.testBit_or, code_shl_testBit]
  split
  · subst k
    rw [Nat.testBit_or, field_testBit]
    by_cases hb : b < 3
    · simp [hb]
    · have := testBit_ge_three x b hx (by omega)
      simp [hb, this]
  · rename_i hk
    rw [field_testBit]
    by_cases hb : b < 3
    · by_cases h4 : j * 3 ≤ k * 3 + b
      · have := testBit_ge_three x (k * 3 + b - j * 3) hx (by omega)
        simp [hb, h4, this]
      · simp [hb, h4]
    · simp [hb]

/-! ## Effect of the function-select accessors on the fields -/

theorem ram_same (r : Regs) (off v : Nat) : ram r off v off = v := by
  simp [ram]

theorem ram_other (r : Regs) (off v i : Nat) (h : i ≠ off) : ram r off v i = r i := by
  simp [ram, h]

theorem fsel_SET_IN (r : Regs) (p q : Nat) :
    fsel (SET_IN ram r p) q = if q = p then 0 else fsel r q := by
  unfold fsel SET_IN
  by_cases hw : q / 10 = p / 10
  · rw [hw, ram_same, field_clear _ _ _ (Nat.mod_lt _ (by decide)) (Nat.mod_lt _ (by decide))]
    by_cases hq : q = p
    · simp [hq]
    · have : q % 10 ≠ p % 10 := by omega
      simp [hq, this]
  · rw [ram_other _ _ _ _ hw]
    have : q ≠ p := by rintro rfl; exact hw rfl
    simp [this]

theorem alt_code_nat (a : Int) (h : 0 ≤ a) : ∃ x : Nat, x ≤ 7 ∧ alt_code a = (x : Int) := by
  unfold alt_code
  split_ifs with h1 h2
  · exact ⟨(a + 4).toNat, by omega, by omega⟩
  · exact ⟨3, by decide, rfl⟩
  · exact ⟨2, by decide, rfl⟩

theorem fsel_or_code (r : Regs) (p q x : Nat) (hx : x ≤ 7) :
    fsel (ram r (p / 10) (r (p / 10) ||| to_unsigned (int_shl (x : Int) ((p % 10) * 3)))) q
      = if q = p then fsel r p ||| x else fsel r q := by
  unfold fsel
  rw [code_shl_eq x _ hx (Nat.mod_lt _ (by decide))]
  by_cases hw : q / 10 = p / 10
  · rw [hw, ram_same, field_or _ _ _ _ hx]
    by_cases hq : q = p
    · simp [hq]
    · have : q % 10 ≠ p % 10 := by omega
      simp [hq, this]
  · rw [ram_other _ _ _ _ hw]
    have : q ≠ p := by rintro rfl; exact hw rfl
    simp [this]

theorem fsel_SET_OUT (r : Regs) (p q : Nat) :
    fsel (SET_OUT ram r p) q = if q = p then fsel r p ||| 1 else fsel r q :=
  fsel_or_code r p q 1 (by decide)

theorem fsel_SET_ALT (r : Regs) (p q x : Nat) (a : Int) (hx : x ≤ 7) (ha : alt_code a = (x : Int)) :
    fsel (SET_ALT ram r p a) q = if q = p then fsel r p ||| x else fsel r q := by
  unfold SET_ALT
  rw [ha]
  exact fsel_or_code r p q x hx

/-! ## The set, clear and level registers -/

theorem one_shl_eq (p : Nat) (hp : p ≤ 31) : to_unsigned (int_shl 1 p) = 2 ^ p := by
  have h := to_unsigned_int_shl 1 p
  rw [Nat.cast_one, Nat.shiftLeft_eq, Nat.one_mul] at h
  rw [h]
  apply Nat.mod_eq_of_lt
  calc 2 ^ p ≤ 2 ^ 31 := Nat.pow_le_pow_right (by decide) hp
    _ < 4294967296 := by decide

theorem and_two_pow_eq (w p : Nat) : w &&& 2 ^ p = if w.testBit p then 2 ^ p else 0 := by
  apply Nat.eq_of_testBit_eq
  intro b
  rw [Nat.testBit_and, Nat.testBit_two_pow]
  by_cases hb : p = b
  · subst hb
    cases hw : w.testBit p <;> simp [Nat.testBit_two_pow]
  · split <;> simp [hb, Nat.testBit_two_pow]

theorem GPIO_READ_value (r : Regs) (p : Nat) (hp : p ≤ 31) :
    (GPIO_READ r p).1 = if (r 13).testBit p then 2 ^ p else 0 := by
  unfold GPIO_READ GPIO_LEV
  rw [one_shl_eq p hp]
  exact and_two_pow_eq _ _

theorem read_level_value (r : Regs) (p : Nat) (hp : p ≤ 31) :
    (read_level r p).1 = (r 13).testBit p := by
  unfold read_level
  rw [GPIO_READ_value r p hp]
  have hpos : 2 ^ p ≠ 0 := Nat.pos_iff_ne_zero.mp (Nat.pow_pos (by decide))
  cases h : (r 13).testBit p <;> simp [hpos]

theorem loopback_eq_ram (r : Regs) (off v : Nat) (h7 : off ≠ 7) (h10 : off ≠ 10) :
    loopback r off v = ram r off v := by
  unfold loopback GPIO_SET GPIO_CLR
  rw [if_neg h7, if_neg h10]

/-! ## Function selection -/

/-- C1: for every pin `p` in `0..53` and every content `r` of the register block, after
`SET_IN(p)` followed by `SET_OUT(p)` the 3-bit field `p % 10` of word `p / 10` reads
`001`, and the field of every other pin `q` of the same word keeps the value it had
before the two calls. -/
theorem set_in_then_set_out_field (r : Regs) (p : Nat) (hp : p ≤ 53) :
    p / 10 ≤ 5 ∧
    field (SET_OUT ram (SET_IN ram r p) p (p / 10)) (p % 10) = 1 ∧
    ∀ q, q ≠ p → q / 10 = p / 10 →
      field (SET_OUT ram (SET_IN ram r p) p (q / 10)) (q % 10) = field (r (q / 10)) (q % 10) := by
  refine ⟨by omega, ?_, ?_⟩
  · have h := fsel_SET_OUT (SET_IN ram r p) p p
    rw [fsel_SET_IN] at h
    simpa [fsel] using h
  · intro q hq _
    have h := fsel_SET_OUT (SET_IN ram r p) p q
    rw [fsel_SET_IN, fsel_SET_IN] at h
    simpa [fsel, hq] using h

/-- The blink program's pin 18 (word 1, bit offset 24) as an instance of C1. -/
theorem set_in_then_set_out_field_witness :
    18 ≤ 53 ∧ 18 / 10 = 1 ∧ (18 % 10) * 3 = 24 ∧
    field (SET_OUT ram (SET_IN ram regs_ones 18) 18 (18 / 10)) (18 % 10) = 1 :=
  ⟨by decide, by decide, by decide,
    (set_in_then_set_out_field regs_ones 18 (by decide)).2.1⟩

/-- C2: for every pin `p` in `0..53` and every 32-bit content `r` of the register block,
`SET_IN(p)` replaces word `p / 10` by the old word with bits `[(p%10)*3, (p%10)*3+3)`
cleared and every other bit kept, which is the old word AND the 32-bit complement of
`7 << ((p%10)*3)`, and it leaves every other word of the block as it was. -/
theorem set_in_clears_field (r : Regs) (p : Nat) (hp : p ≤ 53) (hr : r.WF) :
    p / 10 ≤ 5 ∧
    SET_IN ram r p (p / 10) = r (p / 10) &&& (4294967295 ^^^ (7 <<< ((p % 10) * 3))) ∧
    (∀ b, (SET_IN ram r p (p / 10)).testBit b
        = if (p % 10) * 3 ≤ b ∧ b < (p % 10) * 3 + 3 then false else (r (p / 10)).testBit b) ∧
    field (SET_IN ram r p (p / 10)) (p % 10) = 0 ∧
    (∀ i, i ≠ p / 10 → SET_IN ram r p i = r i) := by
  have hj : p % 10 < 10 := Nat.mod_lt _ (by decide)
  refine ⟨by omega, ?_, ?_, ?_, ?_⟩
  · unfold SET_IN
    rw [ram_same, fsel_mask_eq _ hj]
  · intro b
    unfold SET_IN
    rw [ram_same, Nat.testBit_and, fsel_mask_testBit _ _ hj]
    by_cases hb : b < 32
    · by_cases h1 : (p % 10) * 3 ≤ b <;> by_cases h2 : b < (p % 10) * 3 + 3 <;>
        simp [hb, h1, h2]
    · have hlt : r (p / 10) < 2 ^ b :=
        calc r (p / 10) < 2 ^ 32 := hr (p / 10)
          _ ≤ 2 ^ b := Nat.pow_le_pow_right (by decide) (by omega)
      simp [hb, Nat.testBit_lt_two_pow hlt]
  · have h := fsel_SET_IN r p p
    simpa [fsel] using h
  · intro i hi
    unfold SET_IN
    exact ram_other _ _ _ _ hi

/-- Pin 18 on a block whose words are all ones: `SET_IN(18)` turns word 1 into
`0xF8FFFFFF`. -/
theorem set_in_clears_field_witness :
    18 ≤ 53 ∧ Regs.WF regs_ones ∧
    SET_IN ram regs_ones 18 (18 / 10)
      = 4294967295 &&& (4294967295 ^^^ (7 <<< ((18 % 10) * 3))) :=
  ⟨by decide, fun _ => (by decide : (4294967295 : Nat) < 4294967296),
    (set_in_clears_field regs_ones 18 (by decide)
      (fun _ => (by decide : (4294967295 : Nat) < 4294967296))).2.1⟩

/-- C3: for every pin `p` in `0..53`, every alternate function `a` in `0..5` and every
content `r` of the register block, after `SET_IN(p)` followed by `SET_ALT(p, a)` the
function-select field of pin `p` reads `a + 4` when `a` is 0, 1, 2 or 3, reads 3 when `a`
is 4 and reads 2 when `a` is 5. -/
theorem set_in_then_set_alt_field (r : Regs) (p : Nat) (a : Int) (hp : p ≤ 53)
    (h0 : 0 ≤ a) (h5 : a ≤ 5) :
    p / 10 ≤ 5 ∧ (a ≤ 3 ∨ a = 4 ∨ a = 5) ∧
    (a ≤ 3 → (fsel (SET_ALT ram (SET_IN ram r p) p a) p : Int) = a + 4) ∧
    (a = 4 → fsel (SET_ALT ram (SET_IN ram r p) p a) p = 3) ∧
    (a = 5 → fsel (SET_ALT ram (SET_IN ram r p) p a) p = 2) := by
  obtain ⟨x, hx, hax⟩ := alt_code_nat a h0
  have h : fsel (SET_ALT ram (SET_IN ram r p) p a) p = x := by
    rw [fsel_SET_ALT _ _ _ x a hx hax, fsel_SET_IN]
    simp
  rw [h]
  unfold alt_code at hax
  refine ⟨by omega, by omega, ?_, ?_, ?_⟩
  · intro h3
    rw [if_pos h3] at hax
    exact hax.symm
  · intro h4
    subst h4
    simp at hax
    omega
  · intro h5
    subst h5
    simp at hax
    omega

/-- Pin 18 with alternate function 5 (the PWM function of that pin): the field reads
`010`. -/
theorem set_in_then_set_alt_field_witness :
    18 ≤ 53 ∧ (0 : Int) ≤ 5 ∧ (5 : Int) ≤ 5 ∧
    fsel (SET_ALT ram (SET_IN ram regs_ones 18) 18 5) 18 = 2 :=
  ⟨by decide, by decide, by decide,
    (set_in_then_set_alt_field regs_ones 18 5 (by decide) (by decide)
      (by decide)).2.2.2.2 rfl⟩

/-- C4 (isolation): for distinct pins `p` and `q` in `0..53`, whether or not they share a
word, every alternate function `a` that is not negative (so every `a` in `0..5`) and every
content `r` of the register block, each of `SET_IN(p)`, `SET_OUT(p)` and `SET_ALT(p, a)`
leaves the function-select field of pin `q` as it was before the call. -/
theorem fsel_isolation (r : Regs) (p q : Nat) (a : Int) (hp : p ≤ 53) (hq : q ≤ 53)
    (hpq : p ≠ q) (h0 : 0 ≤ a) :
    p / 10 ≤ 5 ∧ q / 10 ≤ 5 ∧ alt_code a ≤ 7 ∧
    fsel (SET_IN ram r p) q = fsel r q ∧
    fsel (SET_OUT ram r p) q = fsel r q ∧
    fsel (SET_ALT ram r p a) q = fsel r q := by
  obtain ⟨x, hx, hax⟩ := alt_code_nat a h0
  have hne : q ≠ p := fun h => hpq h.symm
  refine ⟨by omega, by omega, by omega, ?_, ?_, ?_⟩
  · rw [fsel_SET_IN, if_neg hne]
  · rw [fsel_SET_OUT, if_neg hne]
  · rw [fsel_SET_ALT _ _ _ x a hx hax, if_neg hne]

/-- Pins 18 and 17 share word 1: configuring pin 18 leaves the field of pin 17 alone. -/
theorem fsel_isolation_witness :
    18 ≤ 53 ∧ 17 ≤ 53 ∧ 18 ≠ 17 ∧ 18 / 10 = 17 / 10 ∧ (0 : Int) ≤ 2 ∧
    fsel (SET_ALT ram regs_stripes 18 2) 17 = fsel regs_stripes 17 :=
  ⟨by decide, by decide, by decide, by decide, by decide,
    (fsel_isolation regs_stripes 18 17 2 (by decide) (by decide) (by decide)
      (by decide)).2.2.2.2.2⟩

/-! ## Driving and reading a pin -/

/-- C5: for every pin `p` in `0..31`, `GPIO_SET = 1 << p` stores into word 7 of the block
the 32-bit value whose bit `p` is 1 and whose other bits are 0, `GPIO_CLR = 1 << p` stores
the same value into word 10, and neither store changes any other word of the block. -/
theorem set_high_set_low_store (r : Regs) (p : Nat) (hp : p ≤ 31) :
    (set_high ram r p 7 = 2 ^ p ∧ set_high ram r p 7 < 4294967296 ∧
      (∀ b, (set_high ram r p 7).testBit b = decide (b = p)) ∧
      ∀ i, i ≠ 7 → set_high ram r p i = r i) ∧
    (set_low ram r p 10 = 2 ^ p ∧ set_low ram r p 10 < 4294967296 ∧
      (∀ b, (set_low ram r p 10).testBit b = decide (b = p)) ∧
      ∀ i, i ≠ 10 → set_low ram r p i = r i) := by
  have hv := one_shl_eq p hp
  have hlt : 2 ^ p < 4294967296 :=
    calc 2 ^ p ≤ 2 ^ 31 := Nat.pow_le_pow_right (by decide) hp
      _ < 4294967296 := by decide
  have hbit : ∀ b, (2 ^ p).testBit b = decide (b = p) := by
    intro b
    rw [Nat.testBit_two_pow]
    by_cases h : p = b
    · simp [h]
    · have h2 : ¬ b = p := fun e => h e.symm
      simp [h, h2]
  constructor
  · have hs : set_high ram r p 7 = 2 ^ p := by
      unfold set_high GPIO_SET
      rw [ram_same, hv]
    refine ⟨hs, by rw [hs]; exact hlt, by rw [hs]; exact hbit, ?_⟩
    intro i hi
    unfold set_high GPIO_SET
    exact ram_other _ _ _ _ hi
  · have hs : set_low ram r p 10 = 2 ^ p := by
      unfold set_low GPIO_CLR
      rw [ram_same, hv]
    refine ⟨hs, by rw [hs]; exact hlt, by rw [hs]; exact hbit, ?_⟩
    intro i hi
    unfold set_low GPIO_CLR
    exact ram_other _ _ _ _ hi

/-- The blink program's stores for pin 18, and the top pin 31 of the word. -/
theorem set_high_set_low_store_witness :
    18 ≤ 31 ∧ set_high ram regs_zero 18 7 = 262144 ∧
    31 ≤ 31 ∧ set_low ram regs_zero 31 10 = 2147483648 :=
  ⟨by decide, (set_high_set_low_store regs_zero 18 (by decide)).1.1,
    by decide, (set_high_set_low_store regs_zero 31 (by decide)).2.1⟩

/-- C6: for every pin `p` in `0..31` and every content `r` of the block, `GPIO_READ(p)`
taken as a truth value is true exactly when bit `p` of word 13 is 1, and evaluating it
leaves the block as it was. -/
theorem read_level_iff_bit (r : Regs) (p : Nat) (hp : p ≤ 31) :
    ((read_level r p).1 = true ↔ (r 13).testBit p = true) ∧
    ((GPIO_READ r p).1 ≠ 0 ↔ (r 13).testBit p = true) ∧
    (read_level r p).2 = r ∧ (GPIO_READ r p).2 = r := by
  refine ⟨by rw [read_level_value r p hp], ?_, rfl, rfl⟩
  have h := read_level_value r p hp
  unfold read_level at h
  rw [← h]
  simp

/-- Pin 18 read on a block whose level word has exactly bit 18 set. -/
theorem read_level_iff_bit_witness :
    18 ≤ 31 ∧
    ((read_level regs_level18 18).1 = true ↔
      (regs_level18 13).testBit 18 = true) :=
  ⟨by decide, (read_level_iff_bit regs_level18 18 (by decide)).1⟩

/-- C7: at pin 18 with a level word in which bit 18 is 1 (the pin is high), the value of
`GPIO_READ(18)` is `1 << 18 = 262144`, which is not 1. -/
theorem gpio_read_high_is_mask :
    (regs_level18 13).testBit 18 = true ∧
    (GPIO_READ regs_level18 18).1 = 262144 ∧
    (GPIO_READ regs_level18 18).1 ≠ 1 := by
  decide

/-- C8: on the loopback device, for every pin `p` in `0..31` and every content `r` of the
block, `GPIO_SET = 1 << p` followed by a read of the level of `p` gives true, and
`GPIO_CLR = 1 << p` followed by a read of the level of `p` gives false.  For pin 18 the
sequence `SET_IN(18)`, `SET_OUT(18)`, `GPIO_SET = 1 << 18`, read gives field `001` and
level true, and then `GPIO_CLR = 1 << 18`, read gives level false. -/
theorem loopback_set_then_read (r : Regs) (p : Nat) (hp : p ≤ 31) :
    (read_level (set_high loopback r p) p).1 = true ∧
    (read_level (set_low loopback r p) p).1 = false ∧
    fsel (set_high loopback (SET_OUT loopback (SET_IN loopback r 18) 18) 18) 18 = 1 ∧
    (read_level (set_high loopback (SET_OUT loopback (SET_IN loopback r 18) 18) 18) 18).1
      = true ∧
    (read_level (set_low loopback (read_level (set_high loopback
      (SET_OUT loopback (SET_IN loopback r 18) 18) 18) 18).2 18) 18).1 = false := by
  have hhigh : ∀ (s : Regs) (q : Nat), q ≤ 31 →
      (read_level (set_high loopback s q) q).1 = true := by
    intro s q hq
    rw [read_level_value _ q hq]
    unfold set_high loopback GPIO_SET GPIO_LEV
    rw [if_pos rfl, ram_same, one_shl_eq q hq, Nat.testBit_or, Nat.testBit_two_pow_self]
    simp
  have hlow : ∀ (s : Regs) (q : Nat), q ≤ 31 →
      (read_level (set_low loopback s q) q).1 = false := by
    intro s q hq
    rw [read_level_value _ q hq]
    unfold set_low loopback GPIO_SET GPIO_CLR GPIO_LEV
    rw [if_neg (by decide), if_pos rfl, ram_same, one_shl_eq q hq, Nat.testBit_and,
      Nat.testBit_xor, testBit_max]
    have hlt : 2 ^ q < 4294967296 :=
      calc 2 ^ q ≤ 2 ^ 31 := Nat.pow_le_pow_right (by decide) hq
        _ < 4294967296 := by decide
    rw [Nat.mod_eq_of_lt hlt, Nat.testBit_two_pow_self]
    have : q < 32 := by omega
    simp [this]
  refine ⟨hhigh r p hp, hlow r p hp, ?_, hhigh _ 18 (by decide), hlow _ 18 (by decide)⟩
  have hin : SET_IN loopback r 18 = SET_IN ram r 18 := by
    unfold SET_IN
    exact loopback_eq_ram _ _ _ (by decide) (by decide)
  have hout : SET_OUT loopback (SET_IN ram r 18) 18 = SET_OUT ram (SET_IN ram r 18) 18 := by
    unfold SET_OUT
    exact loopback_eq_ram _ _ _ (by decide) (by decide)
  have hf : fsel (SET_OUT ram (SET_IN ram r 18) 18) 18 = 1 := by
    rw [fsel_SET_OUT, fsel_SET_IN]
    simp
  rw [hin, hout]
  have hw : set_high loopback (SET_OUT ram (SET_IN ram r 18) 18) 18 (18 / 10)
      = SET_OUT ram (SET_IN ram r 18) 18 (18 / 10) := by
    unfold set_high loopback GPIO_SET GPIO_LEV
    rw [if_pos rfl]
    exact ram_other _ _ _ _ (by decide)
  unfold fsel at hf ⊢
  rw [hw]
  exact hf

/-- The blink program's pin 18 on the loopback device, starting from a block of zeros. -/
theorem loopback_set_then_read_witness :
    18 ≤ 31 ∧ (read_level (set_high loopback regs_zero 18) 18).1 = true ∧
    (read_level (set_low loopback regs_zero 18) 18).1 = false :=
  ⟨by decide, (loopback_set_then_read regs_zero 18 (by decide)).1,
    (loopback_set_then_read regs_zero 18 (by decide)).2.1⟩

/-- C9 (idempotence): for every pin `p` (so every `p` in `0..31`) and every content `r` of
the block, `GPIO_SET = 1 << p` executed twice in a row leaves the block exactly as
executing it once does, both on ordinary memory and on the write-1-to-set loopback
device. -/
theorem set_high_idempotent (r : Regs) (p : Nat) :
    set_high ram (set_high ram r p) p = set_high ram r p ∧
    set_high loopback (set_high loopback r p) p = set_high loopback r p := by
  constructor
  · funext i
    unfold set_high ram
    by_cases h : i = GPIO_SET <;> simp [h]
  · funext i
    unfold set_high loopback
    rw [if_pos rfl, if_pos rfl]
    unfold ram
    by_cases h : i = GPIO_LEV
    · simp [h, Nat.lor_assoc]
    · simp [h]

/-! ## Mapping the register block -/

/-- The comparison `devmem_fd < 0` of `map_gpio` is false for every value of `open`: the
function always goes on to `mmap`, with the descriptor field converted back to `int`. -/
theorem map_gpio_after_open (os : OS) (g : peri_t) :
    map_gpio os g =
      if os.mmap_ret (to_int (to_unsigned os.open_ret)) = MAP_FAILED then
        { ret := -1,
          handle := { devmem_fd := to_unsigned os.open_ret,
                      map := os.mmap_ret (to_int (to_unsigned os.open_ret)),
                      addr := g.addr },
          trace := [Call.sys_open "/dev/mem" (O_RDWR ||| O_SYNC),
            Call.sys_mmap NULL BLOCK_SZ (PROT_READ ||| PROT_WRITE) MAP_SHARED
              (to_int (to_unsigned os.open_ret)) GPIO_BASE,
            Call.printf "failed to map error code: %d\n" [os.errno]] }
      else
        { ret := 0,
          handle := { devmem_fd := to_unsigned os.open_ret,
                      map := os.mmap_ret (to_int (to_unsigned os.open_ret)),
                      addr := os.mmap_ret (to_int (to_unsigned os.open_ret)) },
          trace := [Call.sys_open "/dev/mem" (O_RDWR ||| O_SYNC),
            Call.sys_mmap NULL BLOCK_SZ (PROT_READ ||| PROT_WRITE) MAP_SHARED
              (to_int (to_unsigned os.open_ret)) GPIO_BASE,
            Call.sys_close (to_int (to_unsigned os.open_ret))] } := by
  have h0 : ¬ (to_unsigned os.open_ret < to_unsigned 0) := by
    have : to_unsigned 0 = 0 := by decide
    rw [this]
    exact Nat.not_lt_zero _
  unfold map_gpio
  simp only [h0, if_false]
  split <;> simp

/-- C10: with `open` returning -1, `map_gpio` does not take the branch of the failed
`open`: it calls `mmap` with descriptor -1.  When that `mmap` fails (here with `errno` 9)
it prints the message of the failed mapping and returns -1; were `mmap` to return an
address, it would close descriptor -1 and return 0. -/
theorem map_gpio_open_failure_reaches_mmap :
    map_gpio { open_ret := -1, mmap_ret := fun _ => MAP_FAILED, errno := 9, munmap_ret := 0 }
        { devmem_fd := 0, map := 0, addr := 0 }
      = { ret := -1,
          handle := { devmem_fd := 4294967295, map := 4294967295, addr := 0 },
          trace := [Call.sys_open "/dev/mem" 1052674,
            Call.sys_mmap 0 4096 3 1 (-1) 1059061760,
            Call.printf "failed to map error code: %d\n" [9]] } ∧
    map_gpio { open_ret := -1, mmap_ret := fun _ => 1995440128, errno := 0, munmap_ret := 0 }
        { devmem_fd := 0, map := 0, addr := 0 }
      = { ret := 0,
          handle := { devmem_fd := 4294967295, map := 1995440128, addr := 1995440128 },
          trace := [Call.sys_open "/dev/mem" 1052674,
            Call.sys_mmap 0 4096 3 1 (-1) 1059061760,
            Call.sys_close (-1)] } := by
  constructor <;> rw [map_gpio_after_open] <;> decide

theorem to_int_to_unsigned (z : Int) (h0 : 0 ≤ z) (h1 : z < 2147483648) :
    to_int (to_unsigned z) = z := by
  unfold to_int to_unsigned wrap_int
  omega

theorem to_unsigned_nonneg (z : Int) (h0 : 0 ≤ z) (h1 : z < 2147483648) :
    to_unsigned z = z.toNat := by
  unfold to_unsigned
  omega

theorem map_gpio_ret (os : OS) (g : peri_t) :
    (map_gpio os g).ret
      = if os.mmap_ret (to_int (to_unsigned os.open_ret)) = MAP_FAILED then -1 else 0 := by
  rw [map_gpio_after_open]
  split <;> rfl

theorem map_gpio_addr (os : OS) (g : peri_t) :
    (map_gpio os g).handle.addr
      = if (map_gpio os g).ret = 0 then (map_gpio os g).handle.map else g.addr := by
  rw [map_gpio_after_open]
  split <;> simp

theorem track_map_sole (s : Tracked) (os : OS) (h : s.live = []) :
    sole_mapping (track s (MapperCall.map os)) := by
  unfold sole_mapping
  by_cases hret : (map_gpio os s.handle).ret = 0
  · right
    simp only [track, hret, if_true, h]
    have ha := map_gpio_addr os s.handle
    rw [if_pos hret] at ha
    rw [ha]
    exact ⟨rfl, rfl⟩
  · left
    simp only [track, hret, if_false, h]

theorem track_unmap_sole (s : Tracked) (os : OS) (h : sole_mapping s) :
    sole_mapping (track s (MapperCall.unmap os)) := by
  unfold sole_mapping at h ⊢
  by_cases hm : os.munmap_ret = 0
  · left
    simp only [track, hm, if_true]
    rcases h with h | ⟨h1, h2⟩
    · rw [h]
      rfl
    · rw [h1, h2]
      simp
  · simp only [track, hm, if_false, unmap_gpio]
    exact h

theorem lifecycle_sole (cs : List MapperCall) (s : Tracked) (h : sole_mapping s)
    (hl : lifecycle s cs = true) : sole_mapping (cs.foldl track s) := by
  induction cs generalizing s with
  | nil => exact h
  | cons c cs ih =>
    rw [List.foldl_cons]
    cases c with
    | map os =>
      simp only [lifecycle, Bool.and_eq_true, decide_eq_true_eq] at hl
      exact ih _ (track_map_sole s os hl.1) hl.2
    | unmap os =>
      simp only [lifecycle] at hl
      exact ih _ (track_unmap_sole s os h) hl

theorem reach_sole (cs : List MapperCall)
    (hl : lifecycle { handle := handle_zero, live := [] } cs = true) :
    sole_mapping (reach cs) :=
  lifecycle_sole cs _ (Or.inl rfl) hl

theorem sole_valid_iff (s : Tracked) (h : sole_mapping s) :
    valid_base s = established s := by
  unfold valid_base established
  rcases h with h | ⟨h1, _⟩
  · rw [h]
    simp
  · rw [h1]
    simp

/-! ## Failures, validity of the base address, and the round trip -/

/-- C11 as stated fails: on an operating system whose `munmap` returns -1, `unmap_gpio`
called on a successfully mapped handle makes that `munmap` call and returns 0, so not
every failure of `munmap` gives a non-zero result. -/
theorem unmap_gpio_ignores_munmap_failure :
    os_munmap_fails.munmap_ret = -1 ∧
    (map_gpio os_munmap_fails handle_zero).ret = 0 ∧
    (unmap_gpio os_munmap_fails (map_gpio os_munmap_fails handle_zero).handle).trace
      = [Call.sys_munmap 1995440128 4096] ∧
    (unmap_gpio os_munmap_fails (map_gpio os_munmap_fails handle_zero).handle).ret = 0 ∧
    ¬ (∀ (os : OS) (g : peri_t), os.munmap_ret ≠ 0 → (unmap_gpio os g).ret ≠ 0) := by
  refine ⟨rfl, by decide, by decide, rfl, ?_⟩
  intro h
  exact h os_munmap_fails handle_zero (by decide) rfl

/-- C11 as amended: when `open` succeeds and `mmap` returns `MAP_FAILED`, `map_gpio`
returns -1, a non-zero result, after printing the `errno` of the failure; `unmap_gpio`
returns 0 whatever `munmap` returns. -/
theorem mmap_failure_reported_munmap_unchecked (os : OS) (g : peri_t)
    (h0 : 0 ≤ os.open_ret) (h1 : os.open_ret < 2147483648) :
    (os.mmap_ret os.open_ret = MAP_FAILED →
      (map_gpio os g).ret = -1 ∧ (map_gpio os g).ret ≠ 0 ∧
      (map_gpio os g).trace.getLast? =
        some (Call.printf "failed to map error code: %d\n" [os.errno])) ∧
    (unmap_gpio os g).ret = 0 := by
  refine ⟨?_, rfl⟩
  intro hfail
  have hfd := to_int_to_unsigned os.open_ret h0 h1
  rw [map_gpio_after_open, hfd, if_pos hfail]
  exact ⟨rfl, (by decide : (-1 : Int) ≠ 0), rfl⟩

/-- A failing `mmap` (descriptor 3, `errno` 12) as an instance of the amended C11. -/
theorem mmap_failure_reported_munmap_unchecked_witness :
    (0 : Int) ≤ os_mmap_fails.open_ret ∧ os_mmap_fails.open_ret < 2147483648 ∧
    os_mmap_fails.mmap_ret os_mmap_fails.open_ret = MAP_FAILED ∧
    (map_gpio os_mmap_fails handle_zero).ret = -1 ∧
    (unmap_gpio os_mmap_fails handle_zero).ret = 0 :=
  ⟨by decide, by decide, rfl,
    ((mmap_failure_reported_munmap_unchecked os_mmap_fails handle_zero (by decide)
      (by decide)).1 rfl).1,
    (mmap_failure_reported_munmap_unchecked os_mmap_fails handle_zero (by decide)
      (by decide)).2⟩

/-- C12 as stated fails: after a successful `map_gpio` (mapping at `0x76F00000`) a failed
`map_gpio` leaves `addr` at `0x76F00000`, the base of a mapping that still exists, so
`addr` is a valid base after a failed `map_gpio`; the `unmap_gpio` that follows calls
`munmap` on `0xFFFFFFFF`, so `addr` is still a valid base after `unmap_gpio`.  After two
successful `map_gpio` calls and one `unmap_gpio`, `addr` is the released second address
while the first mapping still exists, so validity and "established and not yet released"
differ.  And when `munmap` fails, `addr` is still a valid base after `unmap_gpio`. -/
theorem addr_valid_outside_lifecycle :
    (map_gpio os_mmap_fails (reach [MapperCall.map os_ok]).handle).ret = -1 ∧
    (reach [MapperCall.map os_ok, MapperCall.map os_mmap_fails]).handle
      = { devmem_fd := 3, map := 4294967295, addr := 1995440128 } ∧
    (reach [MapperCall.map os_ok, MapperCall.map os_mmap_fails]).live = [1995440128] ∧
    valid_base (reach [MapperCall.map os_ok, MapperCall.map os_mmap_fails]) = true ∧
    (unmap_gpio os_ok
        (reach [MapperCall.map os_ok, MapperCall.map os_mmap_fails]).handle).trace
      = [Call.sys_munmap 4294967295 4096] ∧
    valid_base (reach [MapperCall.map os_ok, MapperCall.map os_mmap_fails,
      MapperCall.unmap os_ok]) = true ∧
    (reach [MapperCall.map os_ok, MapperCall.map os_ok_second,
      MapperCall.unmap os_ok]).handle.addr = 1995436032 ∧
    (reach [MapperCall.map os_ok, MapperCall.map os_ok_second,
      MapperCall.unmap os_ok]).live = [1995440128] ∧
    valid_base (reach [MapperCall.map os_ok, MapperCall.map os_ok_second,
      MapperCall.unmap os_ok]) = false ∧
    established (reach [MapperCall.map os_ok, MapperCall.map os_ok_second,
      MapperCall.unmap os_ok]) = true ∧
    valid_base (reach [MapperCall.map os_ok, MapperCall.unmap os_munmap_fails]) = true ∧
    ¬ (∀ cs : List MapperCall, valid_base (reach cs) = established (reach cs)) := by
  have hne : ¬ (∀ cs : List MapperCall, valid_base (reach cs) = established (reach cs)) := by
    intro h
    have h1 := h [MapperCall.map os_ok, MapperCall.map os_ok_second, MapperCall.unmap os_ok]
    revert h1
    decide
  refine ⟨?_, ?_, ?_, ?_, ?_, ?_, ?_, ?_, ?_, ?_, ?_, hne⟩ <;> decide

/-- C12 as amended: in every state reached from the zero handle by a sequence of
`map_gpio` and `unmap_gpio` calls in which `map_gpio` is called only while no mapping is
established, `addr` is a valid base exactly when a mapping has been established and not
yet released.  There a successful `map_gpio` sets `addr` to the address returned by
`mmap`, which is then a valid base; after a failed `map_gpio` (called while no mapping is
established) `addr` is not a valid base; and after an `unmap_gpio` whose `munmap`
succeeds `addr` is not a valid base. -/
theorem addr_valid_iff_established (cs : List MapperCall) (os : OS)
    (hl : lifecycle { handle := handle_zero, live := [] } cs = true) :
    valid_base (reach cs) = established (reach cs) ∧
    ((map_gpio os (reach cs).handle).ret = 0 →
      (track (reach cs) (MapperCall.map os)).handle.addr
        = os.mmap_ret (to_int (to_unsigned os.open_ret)) ∧
      valid_base (track (reach cs) (MapperCall.map os)) = true) ∧
    ((map_gpio os (reach cs).handle).ret ≠ 0 → established (reach cs) = false →
      valid_base (track (reach cs) (MapperCall.map os)) = false) ∧
    (os.munmap_ret = 0 →
      valid_base (track (reach cs) (MapperCall.unmap os)) = false ∧
      established (track (reach cs) (MapperCall.unmap os)) = false) := by
  have hs := reach_sole cs hl
  refine ⟨sole_valid_iff _ hs, ?_, ?_, ?_⟩
  · intro hret
    have ha := map_gpio_addr os (reach cs).handle
    rw [if_pos hret] at ha
    constructor
    · simp only [track]
      rw [ha]
      have hr := map_gpio_ret os (reach cs).handle
      rw [hr] at hret
      rw [map_gpio_after_open]
      split
      · rename_i hf
        rw [if_pos hf] at hret
      · rfl
    · simp only [valid_base, track, hret, if_true, ha]
      simp
  · intro hret hest
    have hlive : (reach cs).live = [] := by
      simpa [established] using hest
    simp only [valid_base, track, hret, if_false, hlive]
    simp
  · intro hm
    have hu := track_unmap_sole (reach cs) os hs
    have hlive : (track (reach cs) (MapperCall.unmap os)).live = [] := by
      rcases hs with h | ⟨h1, h2⟩
      · simp only [track, hm, if_true, h]
        rfl
      · simp only [track, hm, if_true]
        rw [h1, h2]
        simp
    constructor
    · unfold valid_base
      rw [hlive]
      simp
    · unfold established
      rw [hlive]
      simp

/-- A sequence that follows the life cycle: a successful `map_gpio`, its `unmap_gpio`, and
then a failed `map_gpio`; at its end `addr` is not a valid base and no mapping is
established. -/
theorem addr_valid_iff_established_witness :
    lifecycle { handle := handle_zero, live := [] }
      [MapperCall.map os_ok, MapperCall.unmap os_ok, MapperCall.map os_mmap_fails] = true ∧
    valid_base (reach [MapperCall.map os_ok, MapperCall.unmap os_ok,
      MapperCall.map os_mmap_fails])
      = established (reach [MapperCall.map os_ok, MapperCall.unmap os_ok,
        MapperCall.map os_mmap_fails]) ∧
    established (reach [MapperCall.map os_ok, MapperCall.unmap os_ok,
      MapperCall.map os_mmap_fails]) = false :=
  ⟨by decide,
    (addr_valid_iff_established [MapperCall.map os_ok, MapperCall.unmap os_ok,
      MapperCall.map os_mmap_fails] os_ok (by decide)).1,
    by decide⟩

/-- C13 (round trip): when `open` returns a descriptor and `mmap` does not return
`MAP_FAILED`, `map_gpio` returns 0 after exactly the calls `open`, one `mmap` of 4096 bytes
at offset `0x3F000000 + 0x200000` on that descriptor, and `close` of that descriptor; an
`unmap_gpio` right after it makes exactly one call, `munmap` of the address that `mmap`
returned with length 4096, and returns 0. -/
theorem map_then_unmap_round_trip (os : OS) (g : peri_t)
    (h0 : 0 ≤ os.open_ret) (h1 : os.open_ret < 2147483648)
    (hmap : os.mmap_ret os.open_ret ≠ MAP_FAILED) :
    map_gpio os g =
      { ret := 0,
        handle := { devmem_fd := os.open_ret.toNat, map := os.mmap_ret os.open_ret,
                    addr := os.mmap_ret os.open_ret },
        trace := [Call.sys_open "/dev/mem" (2 ||| 1052672),
          Call.sys_mmap 0 4096 (1 ||| 2) 1 os.open_ret (0x3F000000 + 0x200000),
          Call.sys_close os.open_ret] } ∧
    unmap_gpio os (map_gpio os g).handle =
      { ret := 0, handle := (map_gpio os g).handle,
        trace := [Call.sys_munmap (os.mmap_ret os.open_ret) 4096] } := by
  have hfd := to_int_to_unsigned os.open_ret h0 h1
  have hu := to_unsigned_nonneg os.open_ret h0 h1
  have hm : map_gpio os g =
      { ret := 0,
        handle := { devmem_fd := os.open_ret.toNat, map := os.mmap_ret os.open_ret,
                    addr := os.mmap_ret os.open_ret },
        trace := [Call.sys_open "/dev/mem" (2 ||| 1052672),
          Call.sys_mmap 0 4096 (1 ||| 2) 1 os.open_ret (0x3F000000 + 0x200000),
          Call.sys_close os.open_ret] } := by
    rw [map_gpio_after_open, hfd, if_neg hmap, hu]
    rfl
  refine ⟨hm, ?_⟩
  rw [hm]
  rfl

/-- The round trip on an operating system where `open` gives descriptor 3 and `mmap` the
address `0x76F00000`. -/
theorem map_then_unmap_round_trip_witness :
    (0 : Int) ≤ os_ok.open_ret ∧ os_ok.open_ret < 2147483648 ∧
    os_ok.mmap_ret os_ok.open_ret ≠ MAP_FAILED ∧
    (map_gpio os_ok handle_zero).ret = 0 ∧
    (unmap_gpio os_ok (map_gpio os_ok handle_zero).handle).trace
      = [Call.sys_munmap 1995440128 4096] :=
  ⟨by decide, by decide, by decide,
    congrArg Outcome.ret
      (map_then_unmap_round_trip os_ok handle_zero (by decide) (by decide) (by decide)).1,
    congrArg Outcome.trace
      (map_then_unmap_round_trip os_ok handle_zero (by decide) (by decide) (by decide)).2⟩

/-! ## Offsets, encodings and reserved bits -/

theorem or_code_high_bits (w x j b : Nat) (hx : x ≤ 7) (hj : j < 10) (hb : 30 ≤ b) :
    (w ||| to_unsigned (int_shl (x : Int) (j * 3))).testBit b = w.testBit b := by
  rw [code_shl_eq x j hx hj, Nat.testBit_or, code_shl_testBit,
    testBit_ge_three x (b - j * 3) hx (by omega)]
  simp

theorem and_mask_high_bits (w j b : Nat) (hj : j < 10) (hb : b = 30 ∨ b = 31) :
    (w &&& to_unsigned (int_not (int_shl 7 (j * 3)))).testBit b = w.testBit b := by
  rw [Nat.testBit_and, fsel_mask_testBit j b hj]
  have h1 : b < 32 := by omega
  have h2 : ¬ b < j * 3 + 3 := by omega
  simp [h1, h2]

theorem alt_code_gt_five (i : Int) (h : 5 < i) : alt_code i = 2 := by
  unfold alt_code
  rw [if_neg (by omega), if_neg (by omega)]

/-- C14: for every pin `p` in `0..53`, on any device each of `SET_IN(p)`, `SET_OUT(p)` and
`SET_ALT(p, a)` is one store at word offset `p / 10`, which is at most 5, of a value that
depends on word `p / 10` alone, so words 7, 10 and 13 are left alone; `GPIO_SET = 1 << p`
is one store at offset 7, `GPIO_CLR = 1 << p` one store at offset 10, and `GPIO_READ(p)`
depends on word 13 alone.  The highest offset, 13 (byte offset 52), is below
`BLOCK_SZ / 4 = 1024`. -/
theorem accessed_offsets_in_block (r : Regs) (p : Nat) (a : Int) (hp : p ≤ 53) :
    p / 10 ≤ 5 ∧ p / 10 < BLOCK_SZ / 4 ∧
    (∀ d : Device, SET_IN d r p = d r (p / 10) (SET_IN ram r p (p / 10)) ∧
      SET_OUT d r p = d r (p / 10) (SET_OUT ram r p (p / 10)) ∧
      SET_ALT d r p a = d r (p / 10) (SET_ALT ram r p a (p / 10)) ∧
      set_high d r p = d r 7 (set_high ram r p 7) ∧
      set_low d r p = d r 10 (set_low ram r p 10)) ∧
    (∀ r' : Regs, r' (p / 10) = r (p / 10) →
      SET_IN ram r' p (p / 10) = SET_IN ram r p (p / 10) ∧
      SET_OUT ram r' p (p / 10) = SET_OUT ram r p (p / 10) ∧
      SET_ALT ram r' p a (p / 10) = SET_ALT ram r p a (p / 10)) ∧
    (∀ r' : Regs, r' 13 = r 13 → (GPIO_READ r' p).1 = (GPIO_READ r p).1) ∧
    (∀ i, i = 7 ∨ i = 10 ∨ i = 13 →
      SET_IN ram r p i = r i ∧ SET_OUT ram r p i = r i ∧ SET_ALT ram r p a i = r i) ∧
    13 * 4 = 52 ∧ BLOCK_SZ / 4 = 1024 ∧ 13 < BLOCK_SZ / 4 := by
  have hw : p / 10 ≤ 5 := by omega
  have hb : BLOCK_SZ / 4 = 1024 := by decide
  refine ⟨hw, by omega, ?_, ?_, ?_, ?_, rfl, hb, by omega⟩
  · intro d
    simp [SET_IN, SET_OUT, SET_ALT, set_high, set_low, GPIO_SET, GPIO_CLR, ram_same]
  · intro r' h
    simp [SET_IN, SET_OUT, SET_ALT, ram_same, h]
  · intro r' h
    simp only [GPIO_READ, GPIO_LEV, h]
  · intro i hi
    have hne : i ≠ p / 10 := by omega
    simp only [SET_IN, SET_OUT, SET_ALT]
    exact ⟨ram_other _ _ _ _ hne, ram_other _ _ _ _ hne, ram_other _ _ _ _ hne⟩

/-- Pin 53, the highest pin, uses function-select word 5. -/
theorem accessed_offsets_in_block_witness :
    53 ≤ 53 ∧ 53 / 10 ≤ 5 ∧ 13 < BLOCK_SZ / 4 ∧ SET_IN ram regs_ones 53 13 = regs_ones 13 :=
  ⟨by decide, (accessed_offsets_in_block regs_ones 53 0 (by decide)).1,
    (accessed_offsets_in_block regs_ones 53 0 (by decide)).2.2.2.2.2.2.2.2,
    ((accessed_offsets_in_block regs_ones 53 0 (by decide)).2.2.2.2.2.1 13
      (Or.inr (Or.inr rfl))).1⟩

/-- C15: for every pin `p` in `0..53`, every alternate function `a` that is not negative
(so every `a` in `0..5`) and every content `r` of the block, after `SET_OUT(p)` the field
of `p` is the old field OR `001`, and after `SET_ALT(p, a)` it is the old field OR the
code of `a`; hence `SET_OUT(p)` gives `001` exactly when the old field was `000` or
`001`. -/
theorem set_out_set_alt_or_into_field (r : Regs) (p : Nat) (a : Int) (hp : p ≤ 53)
    (h0 : 0 ≤ a) :
    p / 10 ≤ 5 ∧
    fsel (SET_OUT ram r p) p = fsel r p ||| 1 ∧
    fsel (SET_ALT ram r p a) p = fsel r p ||| (alt_code a).toNat ∧
    (fsel (SET_OUT ram r p) p = 1 ↔ fsel r p = 0 ∨ fsel r p = 1) := by
  obtain ⟨x, hx, hax⟩ := alt_code_nat a h0
  have hout : fsel (SET_OUT ram r p) p = fsel r p ||| 1 := by
    rw [fsel_SET_OUT, if_pos rfl]
  refine ⟨by omega, hout, ?_, ?_⟩
  · rw [fsel_SET_ALT _ _ _ x a hx hax, if_pos rfl, hax, Int.toNat_ofNat]
  · rw [hout]
    have hlt : fsel r p < 8 := field_lt _ _
    generalize fsel r p = f at hlt
    interval_cases f <;> decide

/-- Pin 18 with old field `100`: `SET_OUT(18)` makes the field `101`, not `001`. -/
theorem set_out_set_alt_or_into_field_witness :
    18 ≤ 53 ∧ (0 : Int) ≤ 5 ∧ fsel regs_pin18_alt0 18 = 4 ∧
    fsel (SET_OUT ram regs_pin18_alt0 18) 18 = fsel regs_pin18_alt0 18 ||| 1 ∧
    fsel (SET_OUT ram regs_pin18_alt0 18) 18 = 5 :=
  ⟨by decide, by decide, by decide,
    (set_out_set_alt_or_into_field regs_pin18_alt0 18 5 (by decide) (by decide)).2.1,
    by decide⟩

/-- C16: the code that `SET_ALT` selects, `(i<=3?(i+4):(i==4?3:2))`, sends distinct
indices in `0..5` to distinct codes, every code of an index in `0..5` lies in `2..7` (it
fits in 3 bits and is neither `000` nor `001`), and every number in `2..7` is the code of
an index in `0..5`. -/
theorem alt_code_injective_onto (i j c : Int) (hi0 : 0 ≤ i) (hi5 : i ≤ 5) (hj0 : 0 ≤ j)
    (hj5 : j ≤ 5) :
    (alt_code i = alt_code j → i = j) ∧
    2 ≤ alt_code i ∧ alt_code i ≤ 7 ∧ alt_code i < 2 ^ 3 ∧ alt_code i ≠ 0 ∧ alt_code i ≠ 1 ∧
    (2 ≤ c → c ≤ 7 → ∃ k : Int, 0 ≤ k ∧ k ≤ 5 ∧ alt_code k = c) := by
  refine ⟨?_, ?_, ?_, ?_, ?_, ?_, ?_⟩
  · unfold alt_code
    split_ifs <;> omega
  · unfold alt_code
    split_ifs <;> omega
  · unfold alt_code
    split_ifs <;> omega
  · unfold alt_code
    split_ifs <;> omega
  · unfold alt_code
    split_ifs <;> omega
  · unfold alt_code
    split_ifs <;> omega
  · intro h2 h7
    by_cases h4 : 4 ≤ c
    · refine ⟨c - 4, by omega, by omega, ?_⟩
      unfold alt_code
      split_ifs <;> omega
    · refine ⟨7 - c, by omega, by omega, ?_⟩
      unfold alt_code
      split_ifs <;> omega

/-- The codes of alternate functions 4 and 5 and the index with code 7. -/
theorem alt_code_injective_onto_witness :
    (0 : Int) ≤ 4 ∧ (4 : Int) ≤ 5 ∧ (0 : Int) ≤ 5 ∧ (5 : Int) ≤ 5 ∧
    alt_code 4 = 3 ∧ alt_code 5 = 2 ∧ (alt_code 4 = alt_code 5 → (4 : Int) = 5) ∧
    ∃ k : Int, 0 ≤ k ∧ k ≤ 5 ∧ alt_code k = 7 :=
  ⟨by decide, by decide, by decide, by decide, by decide, by decide,
    (alt_code_injective_onto 4 5 7 (by decide) (by decide) (by decide) (by decide)).1,
    (alt_code_injective_onto 4 5 7 (by decide) (by decide) (by decide)
      (by decide)).2.2.2.2.2.2 (by decide) (by decide)⟩

/-- C17: for every pin `p` in `0..53` and every alternate index `i` greater than 5, the
code selected by `SET_ALT(p, i)` is 2, so on every device and every block `SET_ALT(p, i)`
does exactly what `SET_ALT(p, 5)` does: it ORs `010` into the field of pin `p`. -/
theorem set_alt_index_unchecked (r : Regs) (p : Nat) (i : Int) (hp : p ≤ 53)
    (hi : 5 < i) :
    p / 10 ≤ 5 ∧ alt_code i = 2 ∧
    (∀ d : Device, SET_ALT d r p i = SET_ALT d r p 5) ∧
    fsel (SET_ALT ram r p i) p = fsel r p ||| 2 := by
  have hc := alt_code_gt_five i hi
  refine ⟨by omega, hc, ?_, ?_⟩
  · intro d
    unfold SET_ALT
    rw [hc]
    rfl
  · rw [fsel_SET_ALT r p p 2 i (by decide) (by rw [hc]; rfl), if_pos rfl]

/-- Pin 18 with the index 6, which names no alternate function. -/
theorem set_alt_index_unchecked_witness :
    18 ≤ 53 ∧ (5 : Int) < 6 ∧
    SET_ALT ram regs_zero 18 6 = SET_ALT ram regs_zero 18 5 ∧
    fsel (SET_ALT ram regs_zero 18 6) 18 = fsel regs_zero 18 ||| 2 :=
  ⟨by decide, by decide,
    (set_alt_index_unchecked regs_zero 18 6 (by decide) (by decide)).2.2.1 ram,
    (set_alt_index_unchecked regs_zero 18 6 (by decide) (by decide)).2.2.2⟩

/-- C18: for every pin `p` in `0..53`, every alternate function `a` that is not negative
(so every `a` in `0..5`) and every content `r` of the block, `SET_IN(p)`, `SET_OUT(p)` and
`SET_ALT(p, a)` keep bits 30 and 31 of every word, and keep every word at offset 6 or
above as it was. -/
theorem fsel_reserved_bits_kept (r : Regs) (p : Nat) (a : Int) (hp : p ≤ 53) (h0 : 0 ≤ a) :
    (∀ i b, b = 30 ∨ b = 31 →
      (SET_IN ram r p i).testBit b = (r i).testBit b ∧
      (SET_OUT ram r p i).testBit b = (r i).testBit b ∧
      (SET_ALT ram r p a i).testBit b = (r i).testBit b) ∧
    (∀ i, 6 ≤ i →
      SET_IN ram r p i = r i ∧ SET_OUT ram r p i = r i ∧ SET_ALT ram r p a i = r i) := by
  obtain ⟨x, hx, hax⟩ := alt_code_nat a h0
  have hj : p % 10 < 10 := Nat.mod_lt _ (by decide)
  constructor
  · intro i b hb
    by_cases hi : i = p / 10
    · subst hi
      have hb30 : 30 ≤ b := by omega
      refine ⟨?_, ?_, ?_⟩
      · unfold SET_IN
        rw [ram_same]
        exact and_mask_high_bits _ _ _ hj hb
      · unfold SET_OUT
        rw [ram_same]
        exact or_code_high_bits _ 1 _ _ (by decide) hj hb30
      · unfold SET_ALT
        rw [ram_same, hax]
        exact or_code_high_bits _ x _ _ hx hj hb30
    · unfold SET_IN SET_OUT SET_ALT
      rw [ram_other _ _ _ _ hi, ram_other _ _ _ _ hi, ram_other _ _ _ _ hi]
      exact ⟨rfl, rfl, rfl⟩
  · intro i hi
    have hne : i ≠ p / 10 := by omega
    unfold SET_IN SET_OUT SET_ALT
    exact ⟨ram_other _ _ _ _ hne, ram_other _ _ _ _ hne, ram_other _ _ _ _ hne⟩

/-- Pin 29, whose field occupies bits 27..29, on a block of all ones: bits 30 and 31 of
word 2 stay 1 under `SET_IN(29)`. -/
theorem fsel_reserved_bits_kept_witness :
    29 ≤ 53 ∧ 29 % 10 = 9 ∧ (0 : Int) ≤ 0 ∧
    (SET_IN ram regs_ones 29 2).testBit 30 = (regs_ones 2).testBit 30 ∧
    (SET_IN ram regs_ones 29 2).testBit 31 = (regs_ones 2).testBit 31 :=
  ⟨by decide, by decide, by decide,
    ((fsel_reserved_bits_kept regs_ones 29 0 (by decide) (by decide)).1 2 30
      (Or.inl rfl)).1,
    ((fsel_reserved_bits_kept regs_ones 29 0 (by decide) (by decide)).1 2 31
      (Or.inr rfl)).1⟩

end RPI3
